import Mathlib

/-!
Verification of the cuckoo-linux netlog protocol implementation.

This file gives a shallow embedding of the two netlog modules:

* `analyzer/linux/lib/core/netlog.py` — the sender (`ResultLogger`):
  `resolve_category`, `log_convert_types`, and the locked `loq` emission
  path (`logtbl_explained` marking, info frame and data frame writes).
* `lib/cuckoo/common/netlog.py` — the receiver (`BsonParser`): the frame
  reader in `__iter__`, the type converters, `check_names_for_typeinfo`,
  `resolve_flags`, the buffer checksum gate, and the per-document
  dispatch (info / buffer / debug / process / thread / apicall).

Modelling conventions:
* Python `int`/`long` values are Lean `Int`; 32/64-bit wraparound is
  written out as `% 2^32` / `% 2^64` where the source performs it.
* Python `float` values are modelled as exact rationals (`Rat`); no
  claim settled here depends on IEEE-754 rounding.
* Decoded BSON values are the inductive `BVal`; Python dictionaries are
  association lists with insert-replace semantics and Python `==`-based
  key lookup (`pyEq`), under which `int`, `long` and `float` compare
  numerically across constructors.
* Fallible Python code is embedded in `Except PyErr`; an uncaught
  exception surfaces as an `.error` outcome of the run.
-/

/-! ## Basic utilities -/

/-- Decimal digit test for a character. -/
def isDigitChar (c : Char) : Bool := 48 ≤ c.toNat && c.toNat ≤ 57

/-- Interpret a list of decimal digit characters as a natural number. -/
def digitsToNat (ds : List Char) : Nat := ds.foldl (fun a c => a * 10 + (c.toNat - 48)) 0

/-- Python `long(s)` / `int(s)` on a decimal string: optional surrounding
spaces, optional sign, at least one digit; anything else raises. -/
def decParse? (s : String) : Option Int :=
  let cs := ((s.data.dropWhile (· == ' ')).reverse.dropWhile (· == ' ')).reverse
  match cs with
  | '-' :: rest =>
      if rest ≠ [] ∧ rest.all isDigitChar then some (-(digitsToNat rest : Int)) else none
  | '+' :: rest =>
      if rest ≠ [] ∧ rest.all isDigitChar then some (digitsToNat rest : Int) else none
  | rest =>
      if rest ≠ [] ∧ rest.all isDigitChar then some (digitsToNat rest : Int) else none

/-- Substring test on character lists (Python `needle in hay`). -/
def subOfChars : List Char → List Char → Bool
  | needle, [] => needle == []
  | needle, c :: rest => needle.isPrefixOf (c :: rest) || subOfChars needle rest

/-- Python `needle in hay` for strings. -/
def strHasSub (needle hay : String) : Bool := subOfChars needle.data hay.data

/-! ## Sender: `ResultLogger` (analyzer/linux/lib/core/netlog.py)

The sender-side value model: positional syscall arguments arrive as a
flat key/value list whose entries are machine integers or strings. -/

/-- Sender-side Python value: an integer or a (byte) string. -/
inductive SVal where
  | sint (n : Int)
  | sstr (s : String)
  deriving DecidableEq, Repr

/-- `SOCKET_SYSCALL_FILESYSTEM_NAMES` from the sender source. -/
def SOCKET_SYSCALL_FILESYSTEM_NAMES : List String :=
  ["read", "write", "open", "close", "stat", "fstat",
   "lstat", "poll", "lseek", "access", "mkdir", "rename",
   "rmdir", "creat", "link", "unlink", "symlink", "readlink",
   "chmod", "fchmod", "chown", "fchown", "lchown", "umask"]

/-- `SOCKET_SYSCALL_PROCESS_NAMES` from the sender source. -/
def SOCKET_SYSCALL_PROCESS_NAMES : List String :=
  ["mmap", "mprotect", "brk", "clone", "fork", "vfork",
   "execve", "exit", "kill", "chdir", "fchdir", "sysinfo", "ptrace"]

/-- Does any argument in the flat list contain the substring `"filename"`
(Python `isinstance(arg, str)` plus `"filename" in arg`)? -/
def argHasFilename : SVal → Bool
  | .sint _ => false
  | .sstr s => strHasSub "filename" s

/-- `ResultLogger.resolve_category`. The socket-related syscall name set
comes from the external `ptrace.syscall` module (static lookup data per
the spec), so it is a parameter here; the filesystem and process sets are
literal in the source. Note the source returns the literal `"unkown"`. -/
def resolve_category (socketSyscallNames : List String) (name : String)
    (args : List SVal) : String :=
  if name ∈ socketSyscallNames then "network"
  else if name ∈ SOCKET_SYSCALL_FILESYSTEM_NAMES then "filesystem"
  else if name ∈ SOCKET_SYSCALL_PROCESS_NAMES then "process"
  else if args.any argHasFilename then "filesystem"
  else "unkown"

/-- Per-argument wire format selector produced by `log_convert_types`:
`l` (wide integer) or `u` (text). -/
inductive Fmt where
  | l
  | u
  deriving DecidableEq, Repr

/-- `ResultLogger.log_convert_types`: one format character per value
position (odd indices) of the flat argument list. -/
def log_convert_types (args : List SVal) : List Fmt :=
  (List.range (args.length / 2)).map fun i =>
    match args.getD (2 * i + 1) (.sint 0) with
    | .sint _ => .l
    | .sstr _ => .u

/-- A frame as it appears on the wire, abstracted to its kind and call
index (the content plays no role in the emission-ordering claims). -/
inductive Frame where
  | info (index : Nat)
  | data (index : Nat)
  deriving DecidableEq, Repr

/-- One invocation of `ResultLogger.loq` (the lock serializes concurrent
invocations, so a run of the sender is a list of these). -/
structure LoqCall where
  index : Nat
  fmt : List Fmt
  args : List SVal

/-- Sender state: the `logtbl_explained` table (512 zeroes initially) and
the sequence of frames written so far. -/
structure SenderSt where
  explained : List Nat
  frames : List Frame

/-- `long(x)` applied to a sender value: integers pass through, strings
are parsed as decimal (raising `ValueError` otherwise). -/
def svalLong? : SVal → Option Int
  | .sint n => some n
  | .sstr s => decParse? s

/-- Does building the info frame succeed? It reads `args[2*i]` for each
format position; an out-of-range read raises `IndexError`, which `loq`
catches (skipping only the info emission). -/
def infoBuildOk (c : LoqCall) : Bool :=
  (List.range c.fmt.length).all fun i => 2 * i < c.args.length

/-- Does building the data frame succeed? It reads `args[2*i+1]` and
applies `long` for `l`-formatted positions; a failure here is an uncaught
exception, so the data frame is not written. -/
def dataBuildOk (c : LoqCall) : Bool :=
  (List.range c.fmt.length).all fun i =>
    decide (2 * i + 1 < c.args.length) &&
      match c.fmt.getD i .u with
      | .l => (svalLong? (c.args.getD (2 * i + 1) (.sint 0))).isSome
      | .u => true

/-- One `loq` call under the send lock: check `logtbl_explained[index]`
(an out-of-range index raises `IndexError`, caught by the surrounding
`try`), mark the index, maybe write the info frame, then write the data
frame. A failure while building the data frame is an uncaught exception,
so no data frame is written in that case. -/
def loqInfoPhase (st : SenderSt) (c : LoqCall) : SenderSt :=
  if c.index < st.explained.length then
    if st.explained.getD c.index 0 == 0 then
      if infoBuildOk c then
        ⟨st.explained.set c.index 1, st.frames ++ [.info c.index]⟩
      else ⟨st.explained.set c.index 1, st.frames⟩
    else st
  else st

/-- The data-frame phase of `loq`: always attempted after the info
phase. -/
def loqStep (st : SenderSt) (c : LoqCall) : SenderSt :=
  let st1 := loqInfoPhase st c
  if dataBuildOk c then ⟨st1.explained, st1.frames ++ [.data c.index]⟩
  else st1

/-- Initial sender state: `logtbl_explained` is 512 zeroes. -/
def initSender : SenderSt := ⟨List.replicate 512 0, []⟩

/-- A run of the sender over a serialized list of `loq` calls. -/
def runLoq (cs : List LoqCall) : SenderSt := cs.foldl loqStep initSender

/-- No data frame for an index ever precedes that index's info frame in
the emitted frame sequence. -/
@[reducible] def NoDataBeforeInfo (fs : List Frame) : Prop :=
  ∀ (i p q : Nat), p < q →
    ¬(fs[p]? = some (Frame.data i) ∧ fs[q]? = some (Frame.info i))

/-- Sender invariant tying the `logtbl_explained` marks to the frames
emitted so far. -/
def SenderInv (st : SenderSt) : Prop :=
  (∀ i, st.frames.count (.info i) ≤ 1) ∧
  (∀ i, Frame.info i ∈ st.frames → st.explained.getD i 0 ≠ 0) ∧
  (∀ i, i < st.explained.length → Frame.data i ∈ st.frames →
    st.explained.getD i 0 ≠ 0) ∧
  NoDataBeforeInfo st.frames

theorem noDataBeforeInfo_append_data (fs : List Frame) (j : Nat)
    (h : NoDataBeforeInfo fs) : NoDataBeforeInfo (fs ++ [.data j]) := by
  intro i p q hpq hx
  obtain ⟨hp, hq⟩ := hx
  by_cases hq' : q < fs.length
  · exact h i p q hpq ⟨by rwa [List.getElem?_append_left (hpq.trans hq')] at hp,
      by rwa [List.getElem?_append_left hq'] at hq⟩
  · push_neg at hq'
    rw [List.getElem?_append_right hq'] at hq
    rcases Nat.eq_or_lt_of_le hq' with heq | hlt
    · rw [← heq, Nat.sub_self] at hq
      simp at hq
    · rw [List.getElem?_eq_none (by simp; omega)] at hq
      exact Option.noConfusion hq

theorem noDataBeforeInfo_append_info (fs : List Frame) (j : Nat)
    (h : NoDataBeforeInfo fs) (hnd : Frame.data j ∉ fs) :
    NoDataBeforeInfo (fs ++ [.info j]) := by
  intro i p q hpq hx
  obtain ⟨hp, hq⟩ := hx
  by_cases hq' : q < fs.length
  · exact h i p q hpq ⟨by rwa [List.getElem?_append_left (hpq.trans hq')] at hp,
      by rwa [List.getElem?_append_left hq'] at hq⟩
  · push_neg at hq'
    rw [List.getElem?_append_right hq'] at hq
    rcases Nat.eq_or_lt_of_le hq' with heq | hlt
    · rw [← heq, Nat.sub_self] at hq
      simp at hq
      subst hq
      rw [List.getElem?_append_left (heq ▸ hpq)] at hp
      exact hnd (List.getElem?_mem hp)
    · rw [List.getElem?_eq_none (by simp; omega)] at hq
      exact Option.noConfusion hq

theorem getD_set_self_ne_zero (l : List Nat) (i : Nat) (h : i < l.length) :
    (l.set i 1).getD i 0 ≠ 0 := by
  rw [List.getD_eq_getElem?_getD, List.getElem?_set_self h]
  simp

theorem getD_set_preserve (l : List Nat) (i j : Nat) (h : l.getD j 0 ≠ 0) :
    (l.set i 1).getD j 0 ≠ 0 := by
  by_cases hij : i = j
  · subst hij
    by_cases hlen : i < l.length
    · exact getD_set_self_ne_zero l i hlen
    · rw [List.set_eq_of_length_le (Nat.le_of_not_lt hlen)]
      exact h
  · rwa [List.getD_eq_getElem?_getD, List.getElem?_set_ne hij,
      ← List.getD_eq_getElem?_getD]

theorem senderInv_dataPhase (st1 : SenderSt) (c : LoqCall)
    (h1 : SenderInv st1)
    (hstep : c.index < st1.explained.length →
      st1.explained.getD c.index 0 ≠ 0) :
    SenderInv (if dataBuildOk c then
      ⟨st1.explained, st1.frames ++ [.data c.index]⟩ else st1) := by
  obtain ⟨hc1, hi1, hd1, ho1⟩ := h1
  split
  · refine ⟨?_, ?_, ?_, ?_⟩
    · intro i
      rw [List.count_append]
      simpa [List.count_singleton] using hc1 i
    · intro i hm
      rcases List.mem_append.mp hm with hm | hm
      · exact hi1 i hm
      · simp at hm
    · intro i hlen hm
      rcases List.mem_append.mp hm with hm | hm
      · exact hd1 i hlen hm
      · simp at hm
        subst hm
        exact hstep hlen
    · exact noDataBeforeInfo_append_data _ _ ho1
  · exact ⟨hc1, hi1, hd1, ho1⟩

theorem senderInv_infoPhase (st : SenderSt) (c : LoqCall) (h : SenderInv st) :
    SenderInv (loqInfoPhase st c) ∧
    (c.index < (loqInfoPhase st c).explained.length →
      (loqInfoPhase st c).explained.getD c.index 0 ≠ 0) := by
  obtain ⟨hcount, hinfo, hdata, horder⟩ := h
  by_cases hidx : c.index < st.explained.length
  · by_cases hzero : st.explained.getD c.index 0 = 0
    · have hni : Frame.info c.index ∉ st.frames := fun hm => hinfo _ hm hzero
      have hnd : Frame.data c.index ∉ st.frames := fun hm => hdata _ hidx hm hzero
      by_cases hinf : infoBuildOk c
      · rw [loqInfoPhase, if_pos hidx, if_pos (beq_iff_eq.mpr hzero), if_pos hinf]
        refine ⟨⟨?_, ?_, ?_, ?_⟩, ?_⟩
        · intro i
          rw [List.count_append]
          by_cases hi : i = c.index
          · subst hi
            rw [List.count_eq_zero_of_not_mem hni]
            simp [List.count_singleton]
          · have hne : (Frame.info c.index == Frame.info i) = false := by
              simp only [beq_eq_false_iff_ne, ne_eq, Frame.info.injEq]
              exact fun hcontra => hi hcontra.symm
            rw [List.count_singleton, hne]
            simpa using hcount i
        · intro i hm
          rcases List.mem_append.mp hm with hm | hm
          · by_cases hi : i = c.index
            · subst hi
              exact getD_set_self_ne_zero _ _ hidx
            · exact getD_set_preserve _ _ _ (hinfo i hm)
          · simp at hm
            subst hm
            exact getD_set_self_ne_zero _ _ hidx
        · intro i hlen hm
          rcases List.mem_append.mp hm with hm | hm
          · by_cases hi : i = c.index
            · subst hi
              exact getD_set_self_ne_zero _ _ hidx
            · rw [List.length_set] at hlen
              exact getD_set_preserve _ _ _ (hdata i hlen hm)
          · simp at hm
        · exact noDataBeforeInfo_append_info _ _ horder hnd
        · intro _
          exact getD_set_self_ne_zero _ _ hidx
      · rw [loqInfoPhase, if_pos hidx, if_pos (beq_iff_eq.mpr hzero), if_neg hinf]
        refine ⟨⟨hcount, ?_, ?_, horder⟩, ?_⟩
        · intro i hm
          by_cases hi : i = c.index
          · subst hi
            exact getD_set_self_ne_zero _ _ hidx
          · exact getD_set_preserve _ _ _ (hinfo i hm)
        · intro i hlen hm
          by_cases hi : i = c.index
          · subst hi
            exact getD_set_self_ne_zero _ _ hidx
          · rw [List.length_set] at hlen
            exact getD_set_preserve _ _ _ (hdata i hlen hm)
        · intro _
          exact getD_set_self_ne_zero _ _ hidx
    · have hb : (st.explained.getD c.index 0 == 0) = false := by
        simpa using hzero
      rw [loqInfoPhase, if_pos hidx, hb]
      exact ⟨⟨hcount, hinfo, hdata, horder⟩, fun _ => hzero⟩
  · rw [loqInfoPhase, if_neg hidx]
    exact ⟨⟨hcount, hinfo, hdata, horder⟩, fun hlen => absurd hlen hidx⟩

theorem senderInv_step (st : SenderSt) (c : LoqCall) (h : SenderInv st) :
    SenderInv (loqStep st c) := by
  obtain ⟨h1, hstep⟩ := senderInv_infoPhase st c h
  exact senderInv_dataPhase (loqInfoPhase st c) c h1 hstep

theorem senderInv_foldl (cs : List LoqCall) (st : SenderSt) (h : SenderInv st) :
    SenderInv (cs.foldl loqStep st) := by
  induction cs generalizing st with
  | nil => exact h
  | cons c cs ih => exact ih _ (senderInv_step st c h)

theorem senderInv_init : SenderInv initSender := by
  refine ⟨fun i => ?_, fun i hm => absurd hm (List.not_mem_nil _),
    fun i _ hm => absurd hm (List.not_mem_nil _), fun i p q hpq hx => ?_⟩
  · show List.count (Frame.info i) ([] : List Frame) ≤ 1
    simp
  · obtain ⟨hp, -⟩ := hx
    have hp' : (([] : List Frame))[p]? = some (Frame.data i) := hp
    simp at hp'

theorem senderInv_runLoq (cs : List LoqCall) : SenderInv (runLoq cs) :=
  senderInv_foldl cs initSender senderInv_init

/-- C1: for every serialized sequence of `loq` calls on one connection,
the emitted frame sequence contains at most one info frame per index and
no data frame for an index ever precedes that index's info frame (the
index is marked in `logtbl_explained` before any frame is written). -/
theorem loq_info_once_and_ordered (cs : List LoqCall) (i : Nat) :
    (runLoq cs).frames.count (Frame.info i) ≤ 1 ∧
    ∀ (p q : Nat), p < q → ¬((runLoq cs).frames[p]? = some (Frame.data i) ∧
      (runLoq cs).frames[q]? = some (Frame.info i)) :=
  ⟨(senderInv_runLoq cs).1 i,
    fun p q hpq => (senderInv_runLoq cs).2.2.2 i p q hpq⟩

/-- Concrete witness for C1: two calls to index 5; the run emits
info 5, data 5, data 5, and the ordering instance at positions 0 < 1
holds. -/
theorem loq_info_once_and_ordered_witness :
    (runLoq [⟨5, [.l], [.sstr "fd", .sint 3]⟩,
             ⟨5, [.l], [.sstr "fd", .sint 4]⟩]).frames.count (Frame.info 5) ≤ 1 ∧
    ¬((runLoq [⟨5, [.l], [.sstr "fd", .sint 3]⟩,
               ⟨5, [.l], [.sstr "fd", .sint 4]⟩]).frames[0]? =
        some (Frame.data 5) ∧
      (runLoq [⟨5, [.l], [.sstr "fd", .sint 3]⟩,
               ⟨5, [.l], [.sstr "fd", .sint 4]⟩]).frames[1]? =
        some (Frame.info 5)) :=
  ⟨(loq_info_once_and_ordered _ 5).1,
    (loq_info_once_and_ordered _ 5).2 0 1 (by decide)⟩

/-- C6 counterexample: a name in none of the syscall sets with no
`"filename"` argument makes `resolve_category` return the literal
`"unkown"` (the source's misspelling), not `"unknown"`. -/
theorem resolve_category_unknown_misspelled :
    "zzz" ∉ ([] : List String) ∧
    "zzz" ∉ SOCKET_SYSCALL_FILESYSTEM_NAMES ∧
    "zzz" ∉ SOCKET_SYSCALL_PROCESS_NAMES ∧
    resolve_category [] "zzz" [] = "unkown" ∧
    resolve_category [] "zzz" [] ≠ "unknown" := by
  refine ⟨by simp, by decide, by decide, by decide, by decide⟩

/-- C6 (amended): for a name in none of the three syscall sets,
`resolve_category` returns `"filesystem"` when some string argument
contains `"filename"`, and the literal `"unkown"` otherwise. -/
theorem resolve_category_fallback (net : List String) (name : String)
    (args : List SVal) (h1 : name ∉ net)
    (h2 : name ∉ SOCKET_SYSCALL_FILESYSTEM_NAMES)
    (h3 : name ∉ SOCKET_SYSCALL_PROCESS_NAMES) :
    resolve_category net name args =
      if args.any argHasFilename then "filesystem" else "unkown" := by
  simp [resolve_category, h1, h2, h3]

/-- Concrete witness for the amended C6: `"zzz"` with a `"myfilename"`
argument resolves to `"filesystem"`. -/
theorem resolve_category_fallback_witness :
    resolve_category [] "zzz" [.sstr "myfilename"] =
      if ([SVal.sstr "myfilename"].any argHasFilename) then "filesystem"
      else "unkown" :=
  resolve_category_fallback [] "zzz" [.sstr "myfilename"]
    (by simp) (by decide) (by decide)

/-! ## Frame codec (`BsonParser.__iter__` framing loop, lines 143-161) -/

/-- `MAX_MESSAGE_LENGTH`: 20 MiB maximum frame length, self-inclusive. -/
def MAX_MESSAGE_LENGTH : Nat := 20 * 1024 * 1024

/-- Little-endian 4-byte encoding of a 32-bit length
(`struct.pack("I", n)` on a little-endian host). -/
def u32le (n : Nat) : List Nat :=
  [n % 256, n / 256 % 256, n / 65536 % 256, n / 16777216 % 256]

/-- Little-endian 4-byte decoding (`struct.unpack("I", data)[0]`). -/
def u32dec : List Nat → Nat
  | [a, b, c, d] => a + 256 * b + 65536 * c + 16777216 * d
  | _ => 0

/-- Outcome of reading one frame from a byte stream. -/
inductive ReadResult where
  | endOfStream
  | truncated
  | tooLarge
  | frame (data : List Nat) (rest : List Nat)
  deriving DecidableEq, Repr

/-- One iteration of the `BsonParser.__iter__` framing loop: read 4
bytes (none at all = clean end of stream, 1-3 = "lacking data"), decode
the self-inclusive length, reject lengths above `MAX_MESSAGE_LENGTH`,
then read the remaining `blen - 4` bytes (a Python negative read count,
for a declared length below 4, reads to the end of the stream). The
returned `data` is the whole frame including its length prefix, exactly
as the source hands it to `bson_decode`. -/
def read_frame (s : List Nat) : ReadResult :=
  let data := s.take 4
  if data.length == 0 then .endOfStream
  else if data.length ≠ 4 then .truncated
  else
    let blen := u32dec data
    if blen > MAX_MESSAGE_LENGTH then .tooLarge
    else
      let more := if blen < 4 then s.drop 4 else (s.drop 4).take (blen - 4)
      let data2 := data ++ more
      if data2.length < blen then .truncated
      else .frame data2 (s.drop (4 + more.length))

/-- Modelled from the spec: `write_frame` (§4.1) prepends the 4-byte
self-inclusive length `4 + len(body)` to the body. In the repository the
prefix bytes are produced by the external BSON encoder (a BSON document
begins with the same little-endian int32 total length), so only the
spec's contract is available for the writer. A length that does not fit
in 4 bytes cannot be written. -/
def write_frame (body : List Nat) : Option (List Nat) :=
  if 4 + body.length < 2 ^ 32 then some (u32le (4 + body.length) ++ body)
  else none

theorem u32dec_u32le (m : Nat) (h : m < 2 ^ 32) : u32dec (u32le m) = m := by
  simp only [u32le, u32dec]
  omega

theorem u32le_length (m : Nat) : (u32le m).length = 4 := by
  simp [u32le]

/-- C5: writing a frame for a body of length at most
`MAX_MESSAGE_LENGTH - 4` and reading one frame back returns exactly the
original body bytes (after the 4-byte prefix) with nothing left over,
while a longer body's written frame is rejected by the reader as too
large. -/
theorem write_read_frame_roundtrip (body : List Nat) :
    (body.length ≤ MAX_MESSAGE_LENGTH - 4 →
      ∃ f, write_frame body = some f ∧ read_frame f = .frame f [] ∧
        f.drop 4 = body) ∧
    (MAX_MESSAGE_LENGTH - 4 < body.length →
      ∀ f, write_frame body = some f → read_frame f = .tooLarge) := by
  constructor
  · intro h
    have hlt : 4 + body.length < 2 ^ 32 := by
      have : MAX_MESSAGE_LENGTH = 20 * 1024 * 1024 := rfl
      omega
    refine ⟨u32le (4 + body.length) ++ body, ?_, ?_, ?_⟩
    · rw [write_frame, if_pos hlt]
    · rw [read_frame]
      have htake : (u32le (4 + body.length) ++ body).take 4 =
          u32le (4 + body.length) := List.take_left' (u32le_length _)
      have hdrop : (u32le (4 + body.length) ++ body).drop 4 = body :=
        List.drop_left' (u32le_length _)
      simp only [htake, hdrop, u32le_length, u32dec_u32le _ hlt]
      have hnotbig : ¬(4 + body.length > MAX_MESSAGE_LENGTH) := by
        have : MAX_MESSAGE_LENGTH = 20 * 1024 * 1024 := rfl
        omega
      have hnotsmall : ¬(4 + body.length < 4) := by omega
      rw [if_neg (by simp), if_neg (by simp), if_neg hnotbig,
        if_neg hnotsmall]
      have haddsub : 4 + body.length - 4 = body.length := by omega
      rw [haddsub, List.take_length]
      have hlen2 : (u32le (4 + body.length) ++ body).length = 4 + body.length := by
        simp [u32le_length]
      rw [if_neg (by rw [hlen2]; omega)]
      have hdropall : (u32le (4 + body.length) ++ body).drop
          (4 + body.length) = [] := by
        apply List.drop_eq_nil_of_le
        simp [u32le_length]
      rw [hdropall]
    · exact List.drop_left' (u32le_length _)
  · intro h f hw
    have hlt : 4 + body.length < 2 ^ 32 := by
      by_contra hcontra
      rw [write_frame, if_neg hcontra] at hw
      exact Option.noConfusion hw
    rw [write_frame, if_pos hlt] at hw
    obtain rfl := Option.some.inj hw.symm
    rw [read_frame]
    have htake : (u32le (4 + body.length) ++ body).take 4 =
        u32le (4 + body.length) := List.take_left' (u32le_length _)
    simp only [htake, u32le_length, u32dec_u32le _ hlt]
    rw [if_neg (by simp), if_neg (by simp),
      if_pos (by have hmx : MAX_MESSAGE_LENGTH = 20 * 1024 * 1024 := rfl; omega)]

/-- Concrete witness for C5: a 3-byte body round-trips, and a body one
byte above the limit is rejected as too large. -/
theorem write_read_frame_roundtrip_witness :
    (∃ f, write_frame [9, 8, 7] = some f ∧ read_frame f = .frame f [] ∧
      f.drop 4 = [9, 8, 7]) ∧
    read_frame (u32le (MAX_MESSAGE_LENGTH + 1) ++
      List.replicate (MAX_MESSAGE_LENGTH - 3) 0) = .tooLarge := by
  constructor
  · exact (write_read_frame_roundtrip [9, 8, 7]).1 (by decide)
  · refine (write_read_frame_roundtrip
      (List.replicate (MAX_MESSAGE_LENGTH - 3) 0)).2 ?_ _ ?_
    · rw [List.length_replicate]
      decide
    · rw [write_frame, List.length_replicate]
      norm_num [MAX_MESSAGE_LENGTH]

/-! ## SHA-1 (`hashlib.sha1(...).hexdigest()` used by the buffer gate) -/

/-- Lowercase hexadecimal digit character for a value below 16. -/
def hexDigit (n : Nat) : Char :=
  if n < 10 then Char.ofNat (48 + n) else Char.ofNat (87 + n)

/-- Hexadecimal digit characters of a natural number, most significant
first (empty for 0); the fuel argument bounds the recursion depth. -/
def hexDigitsAux : Nat → Nat → List Char
  | 0, _ => []
  | _ + 1, 0 => []
  | fuel + 1, n => hexDigitsAux fuel (n / 16) ++ [hexDigit (n % 16)]

/-- Python `"%0*x"`-style zero-padded lowercase hexadecimal rendering. -/
def hexPad (width n : Nat) : String :=
  let ds := if n = 0 then ['0'] else hexDigitsAux n n
  ⟨List.replicate (width - ds.length) '0' ++ ds⟩

/-- Rotate a 32-bit word left by `k` bits. -/
def rotl32 (k n : Nat) : Nat := ((n <<< k) ||| (n >>> (32 - k))) % (2 ^ 32)

/-- Big-endian 8-byte encoding of the SHA-1 message bit length. -/
def be64 (n : Nat) : List Nat :=
  [n / 2 ^ 56 % 256, n / 2 ^ 48 % 256, n / 2 ^ 40 % 256, n / 2 ^ 32 % 256,
   n / 2 ^ 24 % 256, n / 2 ^ 16 % 256, n / 2 ^ 8 % 256, n % 256]

/-- SHA-1 message padding to a multiple of 64 bytes. -/
def sha1Pad (msg : List Nat) : List Nat :=
  msg ++ 0x80 :: List.replicate ((119 - msg.length % 64) % 64) 0 ++
    be64 (8 * msg.length)

/-- Split a byte list into 64-byte chunks (fuel bounds the recursion). -/
def chunks64 : Nat → List Nat → List (List Nat)
  | 0, _ => []
  | _ + 1, [] => []
  | fuel + 1, l => l.take 64 :: chunks64 fuel (l.drop 64)

/-- Combine bytes into big-endian 32-bit words. -/
def be32Words : List Nat → List Nat
  | a :: b :: c :: d :: rest => (a * 2 ^ 24 + b * 2 ^ 16 + c * 2 ^ 8 + d) :: be32Words rest
  | _ => []

/-- Extend 16 schedule words to 80. -/
def sha1Extend (ws : List Nat) : List Nat :=
  (List.range 64).foldl
    (fun ws _ =>
      let n := ws.length
      ws ++ [rotl32 1 ((ws.getD (n - 3) 0) ^^^ (ws.getD (n - 8) 0) ^^^
                       (ws.getD (n - 14) 0) ^^^ (ws.getD (n - 16) 0))])
    ws

/-- SHA-1 round function. -/
def sha1F (i b c d : Nat) : Nat :=
  if i < 20 then (b &&& c) ||| ((0xffffffff ^^^ b) &&& d)
  else if i < 40 then b ^^^ c ^^^ d
  else if i < 60 then (b &&& c) ||| (b &&& d) ||| (c &&& d)
  else b ^^^ c ^^^ d

/-- SHA-1 round constants. -/
def sha1K (i : Nat) : Nat :=
  if i < 20 then 0x5A827999
  else if i < 40 then 0x6ED9EBA1
  else if i < 60 then 0x8F1BBCDC
  else 0xCA62C1D6

/-- One SHA-1 round on the five-word state. -/
def sha1Round (st : Nat × Nat × Nat × Nat × Nat) (iw : Nat × Nat) :
    Nat × Nat × Nat × Nat × Nat :=
  let (a, b, c, d, e) := st
  let (i, w) := iw
  let tmp := (rotl32 5 a + sha1F i b c d + e + sha1K i + w) % 2 ^ 32
  (tmp, a, rotl32 30 b, c, d)

/-- Process one 64-byte chunk. -/
def sha1Chunk (h : Nat × Nat × Nat × Nat × Nat) (chunk : List Nat) :
    Nat × Nat × Nat × Nat × Nat :=
  let ws := sha1Extend (be32Words chunk)
  let (h0, h1, h2, h3, h4) := h
  let (a, b, c, d, e) := ((List.range 80).zip ws).foldl sha1Round h
  ((h0 + a) % 2 ^ 32, (h1 + b) % 2 ^ 32, (h2 + c) % 2 ^ 32,
   (h3 + d) % 2 ^ 32, (h4 + e) % 2 ^ 32)

/-- SHA-1 initial state. -/
def sha1Init : Nat × Nat × Nat × Nat × Nat :=
  (0x67452301, 0xEFCDAB89, 0x98BADCFE, 0x10325476, 0xC3D2E1F0)

/-- `hashlib.sha1(msg).hexdigest()`: the lowercase 40-character
hexadecimal SHA-1 digest of a byte string. -/
def sha1Hex (msg : List Nat) : String :=
  let p := sha1Pad msg
  let (h0, h1, h2, h3, h4) := (chunks64 (p.length + 1) p).foldl sha1Chunk sha1Init
  hexPad 8 h0 ++ hexPad 8 h1 ++ hexPad 8 h2 ++ hexPad 8 h3 ++ hexPad 8 h4

/-! ## Receiver: decoded BSON values and Python dictionary semantics -/

/-- A decoded BSON value as the Python receiver sees it. `vint` is a
plain Python `int` (BSON int32), `vlong` is `bson.int64.Int64`, `vfloat`
is a Python float (modelled as an exact rational), `vbytes` is a byte
string, `vdatetime` is a `datetime` produced by
`datetime.datetime.fromtimestamp` (modelled by its rational unix
timestamp), and `vdict` is a Python dictionary in insertion order. -/
inductive BVal where
  | vint (n : Int)
  | vlong (n : Int)
  | vfloat (q : Rat)
  | vstr (s : String)
  | vbytes (bs : List Nat)
  | vnone
  | vlist (vs : List BVal)
  | vdict (kvs : List (BVal × BVal))
  | vdatetime (q : Rat)
  deriving Repr

/-- Numeric view of a value: Python compares `int`, `long` and `float`
numerically across types. -/
def BVal.toQ : BVal → Option Rat
  | .vint n => some (n : Rat)
  | .vlong n => some (n : Rat)
  | .vfloat q => some q
  | _ => none

/-- Python `==` on decoded values, fuelled for termination (the fuel
far exceeds Python's own recursion limit on nested comparisons).
Numbers compare numerically; different non-numeric types are unequal. -/
def pyEqF : Nat → BVal → BVal → Bool
  | 0, _, _ => false
  | _ + 1, .vstr a, .vstr b => a == b
  | _ + 1, .vbytes a, .vbytes b => a == b
  | _ + 1, .vnone, .vnone => true
  | _ + 1, .vdatetime a, .vdatetime b => a == b
  | _ + 1, .vlist [], .vlist [] => true
  | f + 1, .vlist (a :: as), .vlist (b :: bs) =>
      pyEqF f a b && pyEqF f (.vlist as) (.vlist bs)
  | _ + 1, .vdict [], .vdict [] => true
  | f + 1, .vdict ((ka, va) :: as), .vdict ((kb, vb) :: bs) =>
      pyEqF f ka kb && pyEqF f va vb && pyEqF f (.vdict as) (.vdict bs)
  | _ + 1, a, b =>
      match a.toQ, b.toQ with
      | some x, some y => x == y
      | _, _ => false

/-- Python `==` on decoded values. -/
def pyEq (a b : BVal) : Bool := pyEqF 1000000 a b

/-- Python `d[k]`-style lookup in an insertion-ordered dictionary
(keys are unique up to `pyEq` by construction). -/
def dGet {α : Type} (kvs : List (BVal × α)) (k : BVal) : Option α :=
  match kvs.find? (fun kv => pyEq kv.1 k) with
  | some kv => some kv.2
  | none => none

/-- Python `k in d`. -/
def dMem {α : Type} (kvs : List (BVal × α)) (k : BVal) : Bool :=
  kvs.any (fun kv => pyEq kv.1 k)

/-- Python `d[k] = v`: replace in place if the key exists, else append. -/
def dSet {α : Type} (kvs : List (BVal × α)) (k : BVal) (v : α) :
    List (BVal × α) :=
  match kvs with
  | [] => [(k, v)]
  | (k', v') :: rest =>
      if pyEq k' k then (k', v) :: rest
      else (k', v') :: dSet rest k v

/-- Python `d.pop(k, default)`: the removed value (or the default) and
the remaining dictionary. -/
def dPop (kvs : List (BVal × BVal)) (k : BVal) (dflt : BVal) :
    BVal × List (BVal × BVal) :=
  match kvs with
  | [] => (dflt, [])
  | (k', v') :: rest =>
      if pyEq k' k then (v', rest)
      else
        let (r, rest') := dPop rest k dflt
        (r, (k', v') :: rest')

/-- Top-level decoded BSON document: BSON document keys are always
strings. -/
abbrev Doc := List (String × BVal)

/-- `dec.get(key, default)` on a decoded document. -/
def Doc.get (d : Doc) (k : String) : Option BVal :=
  match List.find? (fun kv => kv.1 == k) d with
  | some kv => some kv.2
  | none => none

/-- `dec.get(key, dflt)` with an explicit default value. -/
def Doc.getD (d : Doc) (k : String) (dflt : BVal) : BVal :=
  (d.get k).getD dflt

/-- Python truthiness of a decoded value (`if dec.get("flags_value"):`). -/
def truthy : BVal → Bool
  | .vint n => n != 0
  | .vlong n => n != 0
  | .vfloat q => q != 0
  | .vstr s => s != ""
  | .vbytes bs => !bs.isEmpty
  | .vnone => false
  | .vlist vs => !vs.isEmpty
  | .vdict kvs => !kvs.isEmpty
  | .vdatetime _ => true

/-! ## Type converters (`TYPECONVERTERS`, `pointer_converter`,
`default_converter`, `check_names_for_typeinfo`) -/

/-- Python exception kinds that can escape the decoding paths. -/
inductive PyErr where
  | keyError
  | typeError
  | valueError
  | indexError
  | cuckooResultError
  deriving DecidableEq, Repr

/-- `pointer_converter`: a 64-bit (`Int64`) value renders as
`"0x%016x" % (v % 2**64)`, anything else as `"0x%08x" % (v % 2**32)`;
a non-integer argument makes the `%` format raise `TypeError`. -/
def pointer_converter : BVal → Except PyErr BVal
  | .vlong n => .ok (.vstr ("0x" ++ hexPad 16 (n % 2 ^ 64).toNat))
  | .vint n => .ok (.vstr ("0x" ++ hexPad 8 (n % 2 ^ 32).toNat))
  | _ => .error .typeError

/-- `default_converter`: `Int64` passes through, a negative plain
integer becomes its unsigned 32-bit value, a byte string is decoded
(latin-1, modelled as the identity), everything else passes through. -/
def default_converter : BVal → BVal
  | .vlong n => .vlong n
  | .vint n => if n < 0 then .vint (n % 2 ^ 32) else .vint n
  | .vstr s => .vstr s
  | v => v

/-- A converter selected by `check_names_for_typeinfo`: the
`TYPECONVERTERS` table maps the tag `"p"` to `pointer_converter`; every
other tag falls back to `default_converter` (with a logged note). -/
inductive Conv where
  | cdefault
  | cpointer
  deriving DecidableEq, Repr

/-- Apply a selected converter. -/
def Conv.apply : Conv → BVal → Except PyErr BVal
  | .cdefault, v => .ok (default_converter v)
  | .cpointer, v => pointer_converter v

/-- Python iteration over a decoded value: lists yield their elements,
strings their characters, byte strings their bytes, dictionaries their
keys; other values raise `TypeError`. -/
def pyIter : BVal → Except PyErr (List BVal)
  | .vlist vs => .ok vs
  | .vstr s => .ok (s.data.map fun c => .vstr ⟨[c]⟩)
  | .vbytes bs => .ok (bs.map fun b => .vbytes [b])
  | .vdict kvs => .ok (kvs.map (·.1))
  | _ => .error .typeError

/-- Python `len` of a decoded value. -/
def pyLen : BVal → Except PyErr Nat
  | .vlist vs => .ok vs.length
  | .vstr s => .ok s.length
  | .vbytes bs => .ok bs.length
  | .vdict kvs => .ok kvs.length
  | _ => .error .typeError

/-- The argument-name part of one `arginfo` entry:
`i[0] if type(i) in (list, tuple) else i` (an empty list raises
`IndexError` on `i[0]`). -/
def argnameOf : BVal → Except PyErr BVal
  | .vlist [] => .error .indexError
  | .vlist (x :: _) => .ok x
  | v => .ok v

/-- The converter part of one `arginfo` entry: for a `(name, tag)` pair
look the tag up in `TYPECONVERTERS` (only `"p"` is registered), falling
back to `default_converter`; a bare name gets `default_converter`.
A one-element list raises `IndexError` on `i[1]`. -/
def convOf : BVal → Except PyErr Conv
  | .vlist [] => .error .indexError
  | .vlist [_] => .error .indexError
  | .vlist (_ :: tag :: _) =>
      if pyEq tag (.vstr "p") then .ok .cpointer else .ok .cdefault
  | _ => .ok .cdefault

/-- `check_names_for_typeinfo(arginfo)`: the ordered argument names and
their converters. -/
def check_names_for_typeinfo (arginfo : BVal) :
    Except PyErr (List BVal × List Conv) := do
  let items ← pyIter arginfo
  let argnames ← items.mapM argnameOf
  let converters ← items.mapM convOf
  return (argnames, converters)

/-! ## Receiver state (`BsonParser.__init__`) -/

/-- One Schema Cache entry:
`self.infomap[index] = name, arginfo, argnames, converters, category`. -/
structure InfoEntry where
  name : BVal
  arginfo : BVal
  argnames : List BVal
  converters : List Conv
  category : BVal

/-- `BsonParser` connection state: the Schema Cache, the two flag
tables keyed by call name, and the current pid (initially `None`). -/
structure PState where
  infomap : List (BVal × InfoEntry)
  flags_value : List (BVal × List (BVal × List (BVal × BVal)))
  flags_bitmask : List (BVal × List (BVal × BVal))
  pid : BVal

/-- Initial `BsonParser` state: empty maps, `self.pid = None`. -/
def initPState : PState := ⟨[], [], [], .vnone⟩

/-- Is a value usable as a Python dictionary key (hashable)? Lists and
dictionaries are not. -/
def hashable : BVal → Bool
  | .vlist _ => false
  | .vdict _ => false
  | _ => true

/-- Python `dict(values)`: a dictionary copies, a list of two-element
pairs builds a dictionary (later duplicates win); other shapes raise. -/
def pyDictOf : BVal → Except PyErr (List (BVal × BVal))
  | .vdict kvs => .ok kvs
  | .vlist items =>
      items.foldlM
        (fun acc it =>
          match it with
          | .vlist [k, v] =>
              if hashable k then .ok (dSet acc k v) else .error .typeError
          | _ => .error .typeError)
        []
  | _ => .error .typeError

/-- Unpack `for key, flag in values` over a raw bitmask table value:
a list of two-element pairs; other shapes raise. -/
def pairList : BVal → Except PyErr (List (BVal × BVal))
  | .vlist items =>
      items.mapM fun it =>
        match it with
        | .vlist [k, f] => .ok (k, f)
        | _ => .error .typeError
  | _ => .error .typeError

/-- Hexadecimal digit value of a character, if any. -/
def hexDigitVal? (c : Char) : Option Nat :=
  if 48 ≤ c.toNat ∧ c.toNat ≤ 57 then some (c.toNat - 48)
  else if 97 ≤ c.toNat ∧ c.toNat ≤ 102 then some (c.toNat - 87)
  else if 65 ≤ c.toNat ∧ c.toNat ≤ 70 then some (c.toNat - 55)
  else none

/-- Interpret hexadecimal digit characters as a natural number. -/
def hexCharsToNat (ds : List Char) : Nat :=
  ds.foldl (fun a c => a * 16 + (hexDigitVal? c).getD 0) 0

/-- Python `int(s, 16)`: optional surrounding spaces, optional sign,
optional `0x`/`0X` prefix, at least one hex digit; else `ValueError`. -/
def hexParse? (s : String) : Option Int :=
  let cs := ((s.data.dropWhile (· == ' ')).reverse.dropWhile (· == ' ')).reverse
  let signed : Bool × List Char :=
    match cs with
    | '-' :: r => (true, r)
    | '+' :: r => (false, r)
    | r => (false, r)
  let body : List Char :=
    match signed.2 with
    | '0' :: 'x' :: r => r
    | '0' :: 'X' :: r => r
    | r => r
  if body ≠ [] ∧ body.all (fun c => (hexDigitVal? c).isSome) then
    some (if signed.1 then -(hexCharsToNat body : Int) else (hexCharsToNat body : Int))
  else none

/-- The flag-comparison value of an argument in `resolve_flags`: a
string is parsed as hexadecimal (`int(x, 16)`), anything else is used
as-is. -/
def getFlagValue : BVal → Except PyErr BVal
  | .vstr s =>
      match hexParse? s with
      | some n => .ok (.vint n)
      | none => .error .valueError
  | v => .ok v

/-- The integer content of a value for bitmask arithmetic; a
non-integer operand of `&` raises `TypeError`. -/
def asIntB : BVal → Except PyErr Int
  | .vint n => .ok n
  | .vlong n => .ok n
  | _ => .error .typeError

/-! ## `BsonParser.resolve_flags` -/

/-- `argdict[argument]` with Python `KeyError` on a missing key. -/
def adGet (argdict : List (BVal × BVal)) (k : BVal) : Except PyErr BVal :=
  match dGet argdict k with
  | some v => .ok v
  | none => .error .keyError

/-- `BsonParser.resolve_flags(apiname, argdict, flags)`: first the
exact-match `flags_value` tables, then the `flags_bitmask` tables
(skipping arguments already resolved), joining matched symbols with
`"|"`. The bitmask table for `apiname` is looked up unconditionally
(`self.flags_bitmask[apiname]`), raising `KeyError` when absent. The
final `flags` dictionary is returned. -/
def resolve_flags (st : PState) (apiname : BVal)
    (argdict : List (BVal × BVal)) :
    Except PyErr (List (BVal × BVal)) := do
  let fv ← match dGet st.flags_value apiname with
    | some fv => pure fv
    | none => throw PyErr.keyError
  let flags ← fv.foldlM
    (fun flags av => do
      let v0 ← adGet argdict av.1
      let value ← getFlagValue v0
      if dMem av.2 value then
        match dGet av.2 value with
        | some sym => pure (dSet flags av.1 sym)
        | none => throw PyErr.keyError
      else pure flags)
    ([] : List (BVal × BVal))
  let bm ← match dGet st.flags_bitmask apiname with
    | some bm => pure bm
    | none => throw PyErr.keyError
  bm.foldlM
    (fun flags av => do
      if dMem flags av.1 then pure flags
      else do
        let v0 ← adGet argdict av.1
        let value ← getFlagValue v0
        let vi ← asIntB value
        let pairs ← pairList av.2
        let syms ← pairs.foldlM
          (fun syms kf => do
            let ki ← asIntB kf.1
            if Int.land vi ki == ki then
              match kf.2 with
              | .vstr s => pure (syms ++ [s])
              | _ => throw PyErr.typeError
            else pure syms)
          ([] : List String)
        pure (dSet flags av.1 (.vstr (String.intercalate "|" syms))))
    flags

/-! ## `BsonParser.__iter__` document dispatch -/

/-- A yielded record: the `parsed` dictionary, in insertion order. -/
abbrev Parsed := List (String × BVal)

/-- `parsed[k] = v`: replace in place or append. -/
def pSet (d : Parsed) (k : String) (v : BVal) : Parsed :=
  match d with
  | [] => [(k, v)]
  | (k', v') :: rest =>
      if k' == k then (k', v) :: rest
      else (k', v') :: pSet rest k v

/-- Lookup in a yielded record. -/
def pGet (d : Parsed) (k : String) : Option BVal :=
  match List.find? (fun kv => kv.1 == k) d with
  | some kv => some kv.2
  | none => none

/-- Split a character list at separators (the piece after the last
separator is the final path component). -/
def splitChars (p : Char → Bool) : List Char → List (List Char)
  | [] => [[]]
  | c :: rest =>
    match splitChars p rest with
    | [] => [[]]
    | g :: gs => if p c then [] :: g :: gs else (c :: g) :: gs

/-- The last path component of a module path (split on both separator
conventions). -/
def lastPathComponent (s : String) : String :=
  match (splitChars (fun c => c == '/' || c == '\\') s.data).getLast? with
  | some g => ⟨g⟩
  | none => s

/-- Modelled from the spec: `get_filename_from_path` is imported from
`lib.cuckoo.common.utils`, which is not part of this repository
snapshot; per the spec it derives "a process name ... from the module
path's final path component". -/
def get_filename_from_path : BVal → Except PyErr BVal
  | .vstr s => .ok (.vstr (lastPathComponent s))
  | _ => .error .typeError

/-- `argdict[argument]` by string literal key. -/
def getKeyS (argdict : List (BVal × BVal)) (k : String) : Except PyErr BVal :=
  adGet argdict (.vstr k)

/-- `FILETIME` halves to a unix timestamp:
`(timelow + (timehigh << 32)) / 10000000.0 - 11644473600`, written as the
single exact fraction
`(timelow + timehigh * 2^32 - 11644473600 * 10^7) / 10^7`. -/
def filetimeQ (low high : Int) : Rat :=
  mkRat (low + high * 2 ^ 32 - 116444736000000000) (10 ^ 7)

/-- `TimeStamp / 1000.0` for the milliseconds-since-epoch layout,
as an exact fraction. -/
def div1000Q : BVal → Except PyErr Rat
  | .vint n => .ok (mkRat n 1000)
  | .vlong n => .ok (mkRat n 1000)
  | .vfloat q => .ok (mkRat q.num (q.den * 1000))
  | _ => .error .typeError

/-- `dict((argnames[i], converters[i](args[i])) for i in range(len(args)))`:
fold the converted positional values into a dictionary (a duplicated
name keeps its first position, last value). -/
def buildArgdict : List BVal → List Conv → List BVal →
    Except PyErr (List (BVal × BVal))
  | ns, cs, vs =>
    (List.range vs.length).foldlM
      (fun acc i => do
        let v ← (cs.getD i .cdefault).apply (vs.getD i .vnone)
        pure (dSet acc (ns.getD i .vnone) v))
      []

/-- The `apiname == "__process__"` branch: normalize one of the three
legacy layouts and build the `process` record; the returned value is the
new connection pid (`self.pid = pid`) paired with the record. An
unrecognized layout raises `CuckooResultError`. -/
def procProcessBranch (parsed : Parsed) (argdict : List (BVal × BVal)) :
    Except PyErr (BVal × Parsed) := do
  let parsed := pSet parsed "type" (.vstr "process")
  if dMem argdict (.vstr "TimeLow") then do
    let tlv ← getKeyS argdict "TimeLow"
    let thv ← getKeyS argdict "TimeHigh"
    let pidv ← getKeyS argdict "ProcessIdentifier"
    let parsed := pSet parsed "pid" pidv
    let ppidv ← getKeyS argdict "ParentProcessIdentifier"
    let parsed := pSet parsed "ppid" ppidv
    let modulepath ← getKeyS argdict "ModulePath"
    let tl ← asIntB tlv
    let th ← asIntB thv
    let parsed := pSet parsed "first_seen" (.vdatetime (filetimeQ tl th))
    let procname ← get_filename_from_path modulepath
    let parsed := pSet parsed "process_name" procname
    return (pidv, parsed)
  else if dMem argdict (.vstr "time_low") then do
    let tlv ← getKeyS argdict "time_low"
    let thv ← getKeyS argdict "time_high"
    -- The common tail (module path, FILETIME conversion, process name)
    -- is inlined in both arms of the pid/process_identifier choice.
    if dMem argdict (.vstr "pid") then do
      let pidv ← getKeyS argdict "pid"
      let parsed := pSet parsed "pid" pidv
      let ppidv ← getKeyS argdict "ppid"
      let parsed := pSet parsed "ppid" ppidv
      let modulepath ← getKeyS argdict "module_path"
      let tl ← asIntB tlv
      let th ← asIntB thv
      let parsed := pSet parsed "first_seen" (.vdatetime (filetimeQ tl th))
      let procname ← get_filename_from_path modulepath
      let parsed := pSet parsed "process_name" procname
      return (pidv, parsed)
    else do
      let pidv ← getKeyS argdict "process_identifier"
      let parsed := pSet parsed "pid" pidv
      let ppidv ← getKeyS argdict "parent_process_identifier"
      let parsed := pSet parsed "ppid" ppidv
      let modulepath ← getKeyS argdict "module_path"
      let tl ← asIntB tlv
      let th ← asIntB thv
      let parsed := pSet parsed "first_seen" (.vdatetime (filetimeQ tl th))
      let procname ← get_filename_from_path modulepath
      let parsed := pSet parsed "process_name" procname
      return (pidv, parsed)
  else if dMem argdict (.vstr "TimeStamp") then do
    let tsv ← getKeyS argdict "TimeStamp"
    let q ← div1000Q tsv
    let pidv ← getKeyS argdict "ProcessIdentifier"
    let parsed := pSet parsed "pid" pidv
    let ppidv ← getKeyS argdict "ParentProcessIdentifier"
    let parsed := pSet parsed "ppid" ppidv
    let modulepath ← getKeyS argdict "ModulePath"
    let parsed := pSet parsed "first_seen" (.vdatetime q)
    let procname ← get_filename_from_path modulepath
    let parsed := pSet parsed "process_name" procname
    return (pidv, parsed)
  else throw PyErr.cuckooResultError

/-- The `apiname == "__thread__"` branch: the record's pid comes from
the frame's own `ProcessIdentifier` argument (raising `KeyError` when
absent); the connection pid is not consulted and not updated, and the
record's `type` keeps the frame's own `type` field. -/
def procThreadBranch (parsed : Parsed) (argdict : List (BVal × BVal)) :
    Except PyErr Parsed := do
  let pidv ← getKeyS argdict "ProcessIdentifier"
  return pSet parsed "pid" pidv

/-- The tail of the api-call branch after flag resolution: the `flags`
dictionary, stacktrace, uniqhash, and the optional last-error /
NT-status pair (attached only when both `e` and `E` are present). -/
def procApicallTail (dec : Doc) (parsed : Parsed)
    (flags : List (BVal × BVal)) : Parsed :=
  let parsed := pSet parsed "flags" (.vdict flags)
  let parsed := pSet parsed "stacktrace" (dec.getD "s" (.vlist []))
  let parsed := pSet parsed "uniqhash" (dec.getD "h" (.vint 0))
  match dec.get "e", dec.get "E" with
  | some ev, some nv => pSet (pSet parsed "last_error" ev) "nt_status" nv
  | _, _ => parsed

/-- The regular api-call branch: stamp the connection pid, pop
`is_success`/`retval`, attach stacktrace/uniqhash and the optional
last-error pair, and resolve flags when a `flags_value` table is
registered for the name (the tail is inlined in both arms). -/
def procApicallBranch (st : PState) (dec : Doc) (entry : InfoEntry)
    (parsed : Parsed) (argdict : List (BVal × BVal)) :
    Except PyErr Parsed := do
  let parsed := pSet parsed "type" (.vstr "apicall")
  let parsed := pSet parsed "pid" st.pid
  let parsed := pSet parsed "api" entry.name
  let parsed := pSet parsed "category" entry.category
  let pop1 := dPop argdict (.vstr "is_success") (.vint 1)
  let parsed := pSet parsed "status" pop1.1
  let pop2 := dPop pop1.2 (.vstr "retval") (.vint 0)
  let parsed := pSet parsed "return_value" pop2.1
  let argdict := pop2.2
  let parsed := pSet parsed "arguments" (.vdict argdict)
  if dMem st.flags_value entry.name then do
    let flags ← resolve_flags st entry.name argdict
    return procApicallTail dec parsed flags
  else
    return procApicallTail dec parsed []

/-- The Schema Cache as stored in `self.infomap`. -/
abbrev InfoMap := List (BVal × InfoEntry)

/-- The `self.flags_value` table: call name to argument to value map. -/
abbrev FlagsValueMap := List (BVal × List (BVal × List (BVal × BVal)))

/-- The `self.flags_bitmask` table: call name to argument to raw pairs. -/
abbrev FlagsBitmaskMap := List (BVal × List (BVal × BVal))

/-- The `mtype == "info"` branch: update the Schema Cache and the two
flag tables (the connection pid is untouched); nothing is yielded. -/
def procInfo (im : InfoMap) (fv0 : FlagsValueMap) (fb0 : FlagsBitmaskMap)
    (dec : Doc) (index : BVal) :
    Except PyErr (InfoMap × FlagsValueMap × FlagsBitmaskMap) := do
  let name := dec.getD "name" (.vstr "NONAME")
  let arginfo := dec.getD "args" (.vlist [])
  let category := (dec.get "category").getD .vnone
  let nc ← check_names_for_typeinfo arginfo
  let im := dSet im index ⟨name, arginfo, nc.1, nc.2, category⟩
  let fvv := dec.getD "flags_value" .vnone
  let fv ←
    if truthy fvv then do
      let items ← match fvv with
        | .vdict kvs => pure kvs
        | _ => throw PyErr.typeError
      let inner ← items.foldlM
        (fun acc kv => do
          let d ← pyDictOf kv.2
          pure (dSet acc kv.1 d))
        ([] : List (BVal × List (BVal × BVal)))
      pure (dSet fv0 name inner)
    else pure fv0
  let bmv := dec.getD "flags_bitmask" .vnone
  if truthy bmv then do
    let items ← match bmv with
      | .vdict kvs => pure kvs
      | _ => throw PyErr.typeError
    let inner := items.foldl (fun acc kv => dSet acc kv.1 kv.2)
      ([] : List (BVal × BVal))
    return (im, fv, dSet fb0 name inner)
  else return (im, fv, fb0)

/-- The outcome of processing one decoded document: the new state, an
optional yielded record, and an optional buffer-sink store. -/
structure StepOut where
  st : PState
  rec? : Option Parsed
  buf? : Option (String × List Nat)

/-- The `mtype == "buffer"` branch (lines 194-214): hash the payload
(`hashlib.sha1(buf)` raises `TypeError` on a non-byte-string), discard
on checksum mismatch, and store to the buffer sink keyed by the
checksum only when the underlying stream is the analysis-time
`ResultHandler`. Never yields a record; never changes the state. -/
def procBuffer (isRH : Bool) (st : PState) (buf sha1v : BVal) :
    Except PyErr StepOut :=
  match buf with
  | .vbytes bs =>
    if !pyEq sha1v (.vstr (sha1Hex bs)) then .ok ⟨st, none, none⟩
    else if isRH then .ok ⟨st, none, some (sha1Hex bs, bs)⟩
    else .ok ⟨st, none, none⟩
  | _ => .error PyErr.typeError

/-- Dispatch one decoded document, mirroring `BsonParser.__iter__`
lines 170-330: `info` updates the Schema Cache, `buffer` passes the
checksum gate (stored only when the stream is the analysis-time
`ResultHandler`, `isRH`), `debug` yields a debug record, and any other
document is a data frame (skipped without a record when its index is
undescribed or its argument count mismatches). -/
def procDoc (isRH : Bool) (st : PState) (dec : Doc) :
    Except PyErr StepOut := do
  let mtype := dec.getD "type" (.vstr "none")
  let index := dec.getD "I" (.vint (-1))
  if pyEq mtype (.vstr "info") then do
    let m ← procInfo st.infomap st.flags_value st.flags_bitmask dec index
    return ⟨⟨m.1, m.2.1, m.2.2, st.pid⟩, none, none⟩
  else if pyEq mtype (.vstr "buffer") then
    procBuffer isRH st (dec.getD "buffer" .vnone) (dec.getD "checksum" .vnone)
  else do
    let tid := dec.getD "T" (.vint 0)
    let time := dec.getD "t" (.vint 0)
    let parsed := pSet (pSet (pSet [] "type" mtype) "tid" tid) "time" time
    if pyEq mtype (.vstr "debug") then
      return ⟨st, some (pSet parsed "message" (dec.getD "msg" (.vstr ""))), none⟩
    else
      match dGet st.infomap index with
      | none => return ⟨st, none, none⟩
      | some entry => do
        let args := dec.getD "args" (.vlist [])
        let argsLen ← pyLen args
        if argsLen ≠ entry.argnames.length then
          return ⟨st, none, none⟩
        else do
          let argvals ← pyIter args
          let argdict ← buildArgdict entry.argnames entry.converters argvals
          if pyEq entry.name (.vstr "__process__") then do
            let r ← procProcessBranch parsed argdict
            return ⟨{ st with pid := r.1 }, some r.2, none⟩
          else if pyEq entry.name (.vstr "__thread__") then do
            let r ← procThreadBranch parsed argdict
            return ⟨st, some r, none⟩
          else do
            let r ← procApicallBranch st dec entry parsed argdict
            return ⟨st, some r, none⟩

/-- The result of consuming a stream of decoded documents: the records
yielded in order, the buffer-sink stores in order, and `err = some e`
when iteration aborted with an uncaught exception. -/
structure RunOut where
  records : List Parsed
  buffers : List (String × List Nat)
  err : Option PyErr
  finalSt : PState

/-- Consume a list of decoded documents from a given state. -/
def runDocsFrom (isRH : Bool) (st : PState) : List Doc → RunOut
  | [] => ⟨[], [], none, st⟩
  | d :: ds =>
    match procDoc isRH st d with
    | .error e => ⟨[], [], some e, st⟩
    | .ok out =>
        let r := runDocsFrom isRH out.st ds
        ⟨out.rec?.toList ++ r.records, out.buf?.toList ++ r.buffers,
          r.err, r.finalSt⟩

/-- Consume a stream of decoded documents from the initial state. -/
def runDocs (isRH : Bool) (ds : List Doc) : RunOut :=
  runDocsFrom isRH initPState ds

/-- The full `BsonParser.__iter__` loop over the raw byte stream
(lines 140-330): read one frame, decode its body, dispatch the
document. The BSON decoder itself is the external `bson` library, so it
is a parameter; `decode data = none` models `bson_decode` raising, the
exception the source catches on lines 163-168 (log a warning and
`return`). The framing outcomes `endOfStream`, `truncated` and
`tooLarge` are all `return` paths in the source: the generator ends
cleanly with no exception. Only an uncaught dispatch exception
surfaces as `err = some e`. A yielded frame consumes at least four
bytes of the stream, so the fuel `s.length + 1` used by `runStream`
never runs out before the stream does. -/
def runStreamF (decode : List Nat → Option Doc) (isRH : Bool) :
    Nat → PState → List Nat → RunOut
  | 0, st, _ => ⟨[], [], none, st⟩
  | fuel + 1, st, s =>
    match read_frame s with
    | .endOfStream => ⟨[], [], none, st⟩
    | .truncated => ⟨[], [], none, st⟩
    | .tooLarge => ⟨[], [], none, st⟩
    | .frame data rest =>
      match decode data with
      | none => ⟨[], [], none, st⟩
      | some dec =>
        match procDoc isRH st dec with
        | .error e => ⟨[], [], some e, st⟩
        | .ok out =>
          let r := runStreamF decode isRH fuel out.st rest
          ⟨out.rec?.toList ++ r.records, out.buf?.toList ++ r.buffers,
            r.err, r.finalSt⟩

/-- Iterate the Receiver over a raw byte stream from a given state. -/
def runStream (decode : List Nat → Option Doc) (isRH : Bool) (st : PState)
    (s : List Nat) : RunOut :=
  runStreamF decode isRH (s.length + 1) st s

/-! ## Dictionary lemmas -/

theorem pGet_pSet_self (d : Parsed) (k : String) (v : BVal) :
    pGet (pSet d k v) k = some v := by
  induction d with
  | nil => simp [pSet, pGet, List.find?]
  | cons kv rest ih =>
    by_cases h : kv.1 == k
    · simp [pSet, pGet, List.find?, h]
    · simp only [pSet, pGet, List.find?] at ih ⊢
      rw [if_neg (by simpa using h)]
      simpa [List.find?, h] using ih

theorem pGet_pSet_ne (d : Parsed) (k k' : String) (v : BVal) (h : k ≠ k') :
    pGet (pSet d k v) k' = pGet d k' := by
  induction d with
  | nil =>
    simp only [pSet, pGet, List.find?]
    rw [show (k == k') = false by simpa using h]
  | cons kv rest ih =>
    by_cases hk : kv.1 == k
    · simp only [pSet, pGet, List.find?, hk, if_pos (by simpa using hk)]
      by_cases hk' : kv.1 == k'
      · have : k = k' := by
          rw [← show kv.1 = k by simpa using hk]
          simpa using hk'
        exact absurd this h
      · simp [hk']
    · simp only [pSet, pGet, List.find?] at ih ⊢
      rw [if_neg (by simpa using hk)]
      by_cases hk' : kv.1 == k'
      · simp [List.find?, hk']
      · simpa [List.find?, hk'] using ih

theorem dGet_dSet_self {α : Type} (kvs : List (BVal × α)) (k : BVal) (v : α)
    (hk : pyEq k k = true) : dGet (dSet kvs k v) k = some v := by
  induction kvs with
  | nil => simp [dSet, dGet, List.find?, hk]
  | cons kv rest ih =>
    by_cases h : pyEq kv.1 k
    · simp [dSet, dGet, List.find?, h]
    · simp only [dSet, dGet, List.find?] at ih ⊢
      rw [if_neg (by simpa using h)]
      simpa [List.find?, h] using ih

/-! ## C2: fatal conditions and the unrecognized process layout -/

/-- C2 counterexample: a process-creation data frame whose field layout
matches none of the three known shapes makes iteration raise
`CuckooResultError` to the caller (the run ends with an uncaught
exception, not a cleanly terminated record sequence). -/
theorem receiver_unrecognized_layout_raises_cx :
    (runDocs false
      [[("type", .vstr "info"), ("I", .vint 100), ("name", .vstr "__process__"),
        ("args", .vlist [.vstr "foo"])],
       [("I", .vint 100), ("args", .vlist [.vint 7])]]).err =
      some PyErr.cuckooResultError := rfl

/-- C2 (amended): the Receiver ends its record sequence, raising
nothing, for every framing and body-decode fatal condition — clean end
of stream, a truncated read, an over-long declared frame length, and a
body on which the BSON decoder raises — but a process-creation data
frame whose argument dictionary matches none of the three known legacy
shapes raises `CuckooResultError` out of the iterator instead of ending
the sequence. -/
theorem receiver_fatal_end_or_raise (decode : List Nat → Option Doc)
    (isRH : Bool) (st : PState) (s : List Nat) :
    (read_frame s = .endOfStream →
      runStream decode isRH st s = ⟨[], [], none, st⟩) ∧
    (read_frame s = .truncated →
      runStream decode isRH st s = ⟨[], [], none, st⟩) ∧
    (read_frame s = .tooLarge →
      runStream decode isRH st s = ⟨[], [], none, st⟩) ∧
    (∀ data rest, read_frame s = .frame data rest → decode data = none →
      runStream decode isRH st s = ⟨[], [], none, st⟩) ∧
    (∀ (parsed : Parsed) (argdict : List (BVal × BVal)),
      dMem argdict (.vstr "TimeLow") = false →
      dMem argdict (.vstr "time_low") = false →
      dMem argdict (.vstr "TimeStamp") = false →
      procProcessBranch parsed argdict = .error PyErr.cuckooResultError) := by
  refine ⟨?_, ?_, ?_, ?_, ?_⟩
  · intro h
    simp only [runStream, runStreamF, h]
  · intro h
    simp only [runStream, runStreamF, h]
  · intro h
    simp only [runStream, runStreamF, h]
  · intro data rest h hdec
    simp only [runStream, runStreamF, h, hdec]
  · intro parsed argdict h1 h2 h3
    unfold procProcessBranch
    rw [h1, h2, h3]
    simp only [Bool.false_eq_true, if_false]
    rfl

/-- Concrete witness for the amended C2, exercising each fatal
condition: an empty stream, a 2-byte truncated stream, a declared
length above the 20 MiB limit, a well-framed body rejected by the
decoder — all ending cleanly with no records and no exception — and an
unrecognizable process layout raising `CuckooResultError`. -/
theorem receiver_fatal_end_or_raise_witness :
    runStream (fun _ => none) false initPState [] =
      ⟨[], [], none, initPState⟩ ∧
    runStream (fun _ => none) false initPState [1, 2] =
      ⟨[], [], none, initPState⟩ ∧
    runStream (fun _ => none) false initPState [255, 255, 255, 255] =
      ⟨[], [], none, initPState⟩ ∧
    runStream (fun _ => none) false initPState [5, 0, 0, 0, 7] =
      ⟨[], [], none, initPState⟩ ∧
    procProcessBranch [] [(.vstr "foo", .vint 7)] =
      .error PyErr.cuckooResultError :=
  ⟨(receiver_fatal_end_or_raise (fun _ => none) false initPState []).1 rfl,
   (receiver_fatal_end_or_raise (fun _ => none) false initPState
      [1, 2]).2.1 rfl,
   (receiver_fatal_end_or_raise (fun _ => none) false initPState
      [255, 255, 255, 255]).2.2.1 rfl,
   (receiver_fatal_end_or_raise (fun _ => none) false initPState
      [5, 0, 0, 0, 7]).2.2.2.1 [5, 0, 0, 0, 7] [] rfl rfl,
   (receiver_fatal_end_or_raise (fun _ => none) false initPState
      []).2.2.2.2 [] [(.vstr "foo", .vint 7)] rfl rfl rfl⟩

/-! ## C4: undescribed-index data frames are skipped -/

/-- C4: a non-info, non-buffer, non-debug data frame whose index has no
descriptor in the Schema Cache yields no record, stores no buffer,
leaves the state unchanged, and the stream continues with the remaining
frames exactly as if the frame had not been there. -/
theorem undescribed_index_skipped (isRH : Bool) (st : PState) (dec : Doc)
    (ds : List Doc)
    (h1 : pyEq (dec.getD "type" (.vstr "none")) (.vstr "info") = false)
    (h2 : pyEq (dec.getD "type" (.vstr "none")) (.vstr "buffer") = false)
    (h3 : pyEq (dec.getD "type" (.vstr "none")) (.vstr "debug") = false)
    (h4 : dGet st.infomap (dec.getD "I" (.vint (-1))) = none) :
    procDoc isRH st dec = .ok ⟨st, none, none⟩ ∧
    runDocsFrom isRH st (dec :: ds) = runDocsFrom isRH st ds := by
  have hmain : procDoc isRH st dec = .ok ⟨st, none, none⟩ := by
    simp only [procDoc]
    rw [h1, h2, h3, h4]
    simp only [Bool.false_eq_true, if_false]
    rfl
  refine ⟨hmain, ?_⟩
  simp only [runDocsFrom, hmain, Option.toList_none, List.nil_append]

/-- Concrete witness for C4: a bare data frame against the empty Schema
Cache. -/
theorem undescribed_index_skipped_witness :
    procDoc false initPState [("I", .vint 9)] = .ok ⟨initPState, none, none⟩ ∧
    runDocsFrom false initPState [[("I", .vint 9)]] = runDocsFrom false initPState [] :=
  undescribed_index_skipped false initPState [("I", .vint 9)] [] rfl rfl rfl rfl

/-! ## C7: the Thread record's pid -/

/-- Stream for the C7 counterexample: describe `__thread__` at index 1
and `__process__` at index 2, run a process frame (current pid becomes
1234), then a thread frame carrying `ProcessIdentifier` 5678. -/
def c7Stream : List Doc :=
  [[("type", .vstr "info"), ("I", .vint 1), ("name", .vstr "__thread__"),
    ("args", .vlist [.vstr "ProcessIdentifier"])],
   [("type", .vstr "info"), ("I", .vint 2), ("name", .vstr "__process__"),
    ("args", .vlist [.vstr "TimeStamp", .vstr "ProcessIdentifier",
      .vstr "ParentProcessIdentifier", .vstr "ModulePath"])],
   [("I", .vint 2),
    ("args", .vlist [.vint 1700000000000, .vint 1234, .vint 1, .vstr "/bin/sh"])],
   [("I", .vint 1), ("args", .vlist [.vint 5678])]]

/-- C7 counterexample: the yielded Thread record's pid is the frame's
own `ProcessIdentifier` argument (5678), not the connection's current
pid (1234, set by the preceding Process frame). -/
theorem thread_pid_not_current_pid_cx :
    pGet ((runDocs false c7Stream).records.getD 1 []) "pid" =
      some (.vint 5678) ∧
    (runDocs false c7Stream).finalSt.pid = .vint 1234 ∧
    pGet ((runDocs false c7Stream).records.getD 1 []) "pid" ≠
      some (.vint 1234) := by
  refine ⟨rfl, rfl, ?_⟩
  intro h
  have h5 : pGet ((runDocs false c7Stream).records.getD 1 []) "pid" =
      some (.vint 5678) := rfl
  rw [h5] at h
  injection h with h1
  injection h1 with h2
  exact absurd h2 (by decide)

/-- C7 (amended): the Thread record is stamped with the frame's own
`ProcessIdentifier` argument — the connection's current pid is neither
consulted nor updated — and a thread frame without that argument raises
`KeyError`. -/
theorem thread_pid_from_frame_argument (parsed : Parsed)
    (argdict : List (BVal × BVal)) (v : BVal) :
    (dGet argdict (.vstr "ProcessIdentifier") = some v →
      procThreadBranch parsed argdict = .ok (pSet parsed "pid" v)) ∧
    (dGet argdict (.vstr "ProcessIdentifier") = none →
      procThreadBranch parsed argdict = .error PyErr.keyError) := by
  constructor <;> intro h <;> simp [procThreadBranch, getKeyS, adGet, h]

/-- Concrete witness for the amended C7. -/
theorem thread_pid_from_frame_argument_witness :
    procThreadBranch [] [(.vstr "ProcessIdentifier", .vint 7)] =
      .ok (pSet [] "pid" (.vint 7)) ∧
    procThreadBranch [] [] = .error PyErr.keyError :=
  ⟨(thread_pid_from_frame_argument [] [(.vstr "ProcessIdentifier", .vint 7)]
      (.vint 7)).1 rfl,
   (thread_pid_from_frame_argument [] [] .vnone).2 rfl⟩

/-! ## C9: flags_value without flags_bitmask -/

/-- C9: when a `flags_value` table is registered for a call name but no
`flags_bitmask` table is, `resolve_flags` raises `KeyError` at the
unconditional `self.flags_bitmask[apiname]` lookup instead of returning
a flags dictionary. -/
theorem resolve_flags_missing_bitmask (st : PState) (apiname : BVal)
    (argdict : List (BVal × BVal)) (argname : String) (v : Int)
    (hfv : dGet st.flags_value apiname = some [(.vstr argname, [])])
    (harg : dGet argdict (.vstr argname) = some (.vint v))
    (hbm : dGet st.flags_bitmask apiname = none) :
    resolve_flags st apiname argdict = .error PyErr.keyError := by
  simp only [resolve_flags, hfv, hbm, pure_bind, List.foldlM_cons,
    List.foldlM_nil, adGet, harg]
  rfl

/-- Info document for the C9 witness: registers a `flags_value` table
for `CreateFileW` and no `flags_bitmask` table. -/
def c9Info : Doc :=
  [("type", .vstr "info"), ("I", .vint 3), ("name", .vstr "CreateFileW"),
   ("args", .vlist [.vstr "is_success", .vstr "retval", .vstr "x"]),
   ("flags_value", .vdict [(.vstr "x", .vlist [])])]

/-- Concrete witness for C9: the state produced by the info frame above
makes `resolve_flags` raise `KeyError` for a `CreateFileW` call. -/
theorem resolve_flags_missing_bitmask_witness :
    resolve_flags (runDocs false [c9Info]).finalSt (.vstr "CreateFileW")
      [(.vstr "x", .vint 5)] = .error PyErr.keyError :=
  resolve_flags_missing_bitmask (runDocs false [c9Info]).finalSt
    (.vstr "CreateFileW") [(.vstr "x", .vint 5)] "x" 5 rfl rfl rfl

/-! ## C3: the buffer checksum gate -/

/-- Python `==` on two decoded strings is string equality. -/
theorem pyEq_vstr_vstr (a b : String) : pyEq (.vstr a) (.vstr b) = (a == b) := rfl

/-- C3 (amended): a buffer frame whose checksum differs from the SHA-1
hex digest of its payload is discarded — no buffer store, no record,
state unchanged, stream continues — while a matching frame consumed by
the analysis-time `ResultHandler` stream (`isRH = true`) is forwarded to
the buffer sink exactly once, keyed by the checksum. A matching frame on
any other stream is also dropped (see the counterexample). -/
theorem buffer_checksum_gate (st : PState) (bs : List Nat) (checksum : BVal)
    (isRH : Bool) :
    (pyEq checksum (.vstr (sha1Hex bs)) = false →
      procBuffer isRH st (.vbytes bs) checksum = .ok ⟨st, none, none⟩) ∧
    (pyEq checksum (.vstr (sha1Hex bs)) = true →
      procBuffer true st (.vbytes bs) checksum =
        .ok ⟨st, none, some (sha1Hex bs, bs)⟩) := by
  have hred : ∀ rh : Bool, procBuffer rh st (.vbytes bs) checksum =
      (if !pyEq checksum (.vstr (sha1Hex bs)) then pure ⟨st, none, none⟩
       else if rh then pure ⟨st, none, some (sha1Hex bs, bs)⟩
       else pure ⟨st, none, none⟩) := fun _ => rfl
  constructor <;> intro h <;> rw [hred, h] <;> rfl


set_option maxRecDepth 1000000

/-- C3 counterexample: a buffer frame whose checksum matches its payload
hash is NOT forwarded to the buffer sink when the consuming stream is
not the analysis-time `ResultHandler` (the `isinstance` check on line
208), contradicting "a matching one always does, exactly once"; no
error is raised and the stream continues. -/
theorem buffer_match_dropped_without_handler_cx :
    (runDocs false [[("type", .vstr "buffer"), ("buffer", .vbytes [97, 98, 99]),
      ("checksum", .vstr "a9993e364706816aba3e25717850c26c9cd0d89d")]]).buffers =
      [] ∧
    (runDocs false [[("type", .vstr "buffer"), ("buffer", .vbytes [97, 98, 99]),
      ("checksum", .vstr "a9993e364706816aba3e25717850c26c9cd0d89d")]]).err =
      none := ⟨rfl, rfl⟩

/-- Concrete witness for the amended C3: a wrong checksum (`"00"`) is
discarded, and the true digest of `"abc"` is forwarded on the
`ResultHandler` stream. -/
theorem buffer_checksum_gate_witness :
    procBuffer false initPState (.vbytes [97, 98, 99]) (.vstr "00") =
      .ok ⟨initPState, none, none⟩ ∧
    procBuffer true initPState (.vbytes [97, 98, 99])
      (.vstr (sha1Hex [97, 98, 99])) =
      .ok ⟨initPState, none, some (sha1Hex [97, 98, 99], [97, 98, 99])⟩ :=
  ⟨(buffer_checksum_gate initPState [97, 98, 99] (.vstr "00") false).1 (by rfl),
   (buffer_checksum_gate initPState [97, 98, 99]
      (.vstr (sha1Hex [97, 98, 99])) true).2 (by rfl)⟩

/-! ## C8: legacy process-record layout equivalence -/

/-- Info frame describing `__process__` with the PascalCase layout. -/
def c8PascalInfo : Doc :=
  [("type", .vstr "info"), ("I", .vint 2), ("name", .vstr "__process__"),
   ("args", .vlist [.vstr "TimeLow", .vstr "TimeHigh",
     .vstr "ProcessIdentifier", .vstr "ParentProcessIdentifier",
     .vstr "ModulePath"])]

/-- Data frame carrying the PascalCase positional values. -/
def c8PascalData (lowV highV pidV ppidV pathV : BVal) : Doc :=
  [("I", .vint 2), ("args", .vlist [lowV, highV, pidV, ppidV, pathV])]

/-- Info frame describing `__process__` with the snake_case layout. -/
def c8SnakeInfo : Doc :=
  [("type", .vstr "info"), ("I", .vint 2), ("name", .vstr "__process__"),
   ("args", .vlist [.vstr "time_low", .vstr "time_high", .vstr "pid",
     .vstr "ppid", .vstr "module_path"])]

/-- Data frame carrying the snake_case positional values. -/
def c8SnakeData (lowV highV pidV ppidV pathV : BVal) : Doc :=
  [("I", .vint 2), ("args", .vlist [lowV, highV, pidV, ppidV, pathV])]

/-- Argument dictionary of a PascalCase process frame. -/
def c8PascalArgdict (lowV highV pidV ppidV pathV : BVal) :
    List (BVal × BVal) :=
  [(.vstr "TimeLow", lowV), (.vstr "TimeHigh", highV),
   (.vstr "ProcessIdentifier", pidV), (.vstr "ParentProcessIdentifier", ppidV),
   (.vstr "ModulePath", pathV)]

/-- Argument dictionary of a snake_case process frame. -/
def c8SnakeArgdict (lowV highV pidV ppidV pathV : BVal) :
    List (BVal × BVal) :=
  [(.vstr "time_low", lowV), (.vstr "time_high", highV),
   (.vstr "pid", pidV), (.vstr "ppid", ppidV),
   (.vstr "module_path", pathV)]

/-- C8: the snake_case process layout decodes exactly as the PascalCase
layout. The first conjunct is fully general: for arbitrary payload
values the `__process__` branch produces identical outcomes (same
record, same new pid, or the same error) for the two argument
dictionaries. The second instantiates a full two-frame stream on
concrete values: the yielded record sequences coincide. -/
theorem process_legacy_layouts_equiv (parsed : Parsed)
    (lowV highV pidV ppidV pathV : BVal) :
    procProcessBranch parsed (c8PascalArgdict lowV highV pidV ppidV pathV) =
      procProcessBranch parsed (c8SnakeArgdict lowV highV pidV ppidV pathV) ∧
    (runDocs false [c8PascalInfo,
      c8PascalData (.vint 3) (.vint 4) (.vint 1234) (.vint 1)
        (.vstr "/bin/sh")]).records =
      (runDocs false [c8SnakeInfo,
        c8SnakeData (.vint 3) (.vint 4) (.vint 1234) (.vint 1)
          (.vstr "/bin/sh")]).records :=
  ⟨rfl, rfl⟩

/-! ## C10: the current pid before any process frame -/

theorem except_bind_ok {ε α β : Type} (a : α) (f : α → Except ε β) :
    ((Except.ok a : Except ε α) >>= f) = f a := rfl

theorem except_bind_error {ε α β : Type} (e : ε) (f : α → Except ε β) :
    ((Except.error e : Except ε α) >>= f) = Except.error e := rfl

theorem except_pure {ε α : Type} (a : α) :
    (pure a : Except ε α) = Except.ok a := rfl

theorem except_throw {ε α : Type} (e : ε) :
    (throw e : Except ε α) = Except.error e := rfl

theorem except_bind_eq_ok {ε α β : Type} {a : Except ε α} {f : α → Except ε β}
    {b : β} (h : (a >>= f) = .ok b) : ∃ x, a = .ok x ∧ f x = .ok b := by
  cases a with
  | error e =>
    rw [except_bind_error] at h
    exact Except.noConfusion h
  | ok x => exact ⟨x, rfl, by rwa [except_bind_ok] at h⟩

theorem procProcess_shape (parsed : Parsed) (argdict : List (BVal × BVal))
    (pr : BVal × Parsed)
    (h : procProcessBranch parsed argdict = .ok pr) :
    pGet pr.2 "first_seen" ≠ none ∧ pGet pr.2 "api" = pGet parsed "api" := by
  unfold procProcessBranch getKeyS adGet at h
  split at h
  · obtain ⟨tlv, -, h⟩ := except_bind_eq_ok h
    obtain ⟨thv, -, h⟩ := except_bind_eq_ok h
    obtain ⟨pidv, -, h⟩ := except_bind_eq_ok h
    obtain ⟨ppidv, -, h⟩ := except_bind_eq_ok h
    obtain ⟨mp, -, h⟩ := except_bind_eq_ok h
    obtain ⟨tl, -, h⟩ := except_bind_eq_ok h
    obtain ⟨th, -, h⟩ := except_bind_eq_ok h
    obtain ⟨pn, -, h⟩ := except_bind_eq_ok h
    cases h
    exact ⟨by simp [pGet_pSet_self, pGet_pSet_ne],
      by simp [pGet_pSet_ne]⟩
  · split at h
    · obtain ⟨tlv, -, h⟩ := except_bind_eq_ok h
      obtain ⟨thv, -, h⟩ := except_bind_eq_ok h
      split at h <;>
        · obtain ⟨pidv, -, h⟩ := except_bind_eq_ok h
          obtain ⟨ppidv, -, h⟩ := except_bind_eq_ok h
          obtain ⟨mp, -, h⟩ := except_bind_eq_ok h
          obtain ⟨tl, -, h⟩ := except_bind_eq_ok h
          obtain ⟨th, -, h⟩ := except_bind_eq_ok h
          obtain ⟨pn, -, h⟩ := except_bind_eq_ok h
          cases h
          exact ⟨by simp [pGet_pSet_self, pGet_pSet_ne],
            by simp [pGet_pSet_ne]⟩
    · split at h
      · obtain ⟨tsv, -, h⟩ := except_bind_eq_ok h
        obtain ⟨q, -, h⟩ := except_bind_eq_ok h
        obtain ⟨pidv, -, h⟩ := except_bind_eq_ok h
        obtain ⟨ppidv, -, h⟩ := except_bind_eq_ok h
        obtain ⟨mp, -, h⟩ := except_bind_eq_ok h
        obtain ⟨pn, -, h⟩ := except_bind_eq_ok h
        cases h
        exact ⟨by simp [pGet_pSet_self, pGet_pSet_ne],
          by simp [pGet_pSet_ne]⟩
      · rw [except_throw] at h
        exact Except.noConfusion h

theorem procThread_shape (parsed : Parsed) (argdict : List (BVal × BVal))
    (r : Parsed) (h : procThreadBranch parsed argdict = .ok r) :
    pGet r "api" = pGet parsed "api" ∧
    pGet r "first_seen" = pGet parsed "first_seen" := by
  unfold procThreadBranch getKeyS adGet at h
  obtain ⟨pidv, -, h⟩ := except_bind_eq_ok h
  cases h
  exact ⟨by simp [pGet_pSet_ne], by simp [pGet_pSet_ne]⟩

theorem procApicall_shape (st : PState) (dec : Doc) (entry : InfoEntry)
    (parsed : Parsed) (argdict : List (BVal × BVal)) (r : Parsed)
    (h : procApicallBranch st dec entry parsed argdict = .ok r) :
    pGet r "pid" = some st.pid ∧ pGet r "api" = some entry.name ∧
    pGet r "first_seen" = pGet parsed "first_seen" := by
  unfold procApicallBranch at h
  split at h
  · obtain ⟨flags, -, h⟩ := except_bind_eq_ok h
    cases h
    refine ⟨?_, ?_, ?_⟩ <;>
      · unfold procApicallTail
        split <;> simp [pGet_pSet_self, pGet_pSet_ne]
  · cases h
    refine ⟨?_, ?_, ?_⟩ <;>
      · unfold procApicallTail
        split <;> simp [pGet_pSet_self, pGet_pSet_ne]

theorem procBuffer_shape (isRH : Bool) (st : PState) (buf sha1v : BVal)
    (out : StepOut) (h : procBuffer isRH st buf sha1v = .ok out) :
    out.st = st ∧ out.rec? = none := by
  cases buf
  case vbytes bs =>
    rw [show procBuffer isRH st (.vbytes bs) sha1v =
        (if !pyEq sha1v (.vstr (sha1Hex bs)) then .ok ⟨st, none, none⟩
         else if isRH then .ok ⟨st, none, some (sha1Hex bs, bs)⟩
         else .ok ⟨st, none, none⟩) from rfl] at h
    cases hb : !pyEq sha1v (.vstr (sha1Hex bs)) <;> rw [hb] at h <;>
      cases isRH <;> simp at h <;> (cases h; exact ⟨rfl, rfl⟩)
  all_goals exact Except.noConfusion h

theorem parsed_base_no_api (mtype tid time : BVal) :
    pGet (pSet (pSet (pSet [] "type" mtype) "tid" tid) "time" time) "api" =
      none := by
  simp [pSet, pGet, List.find?]

theorem procDoc_step_facts (isRH : Bool) (st : PState) (dec : Doc)
    (out : StepOut) (h : procDoc isRH st dec = .ok out) :
    (out.rec? = none → out.st.pid = st.pid) ∧
    (∀ r, out.rec? = some r → pGet r "first_seen" = none →
      out.st.pid = st.pid) ∧
    (∀ r, out.rec? = some r → pGet r "api" ≠ none →
      pGet r "pid" = some st.pid) := by
  unfold procDoc at h
  simp only [] at h
  split at h
  · obtain ⟨m, -, h⟩ := except_bind_eq_ok h
    cases h
    exact ⟨fun _ => rfl, fun r hr => Option.noConfusion hr,
      fun r hr => Option.noConfusion hr⟩
  · split at h
    · obtain ⟨hst, hrec⟩ := procBuffer_shape _ _ _ _ _ h
      refine ⟨fun _ => by rw [hst], ?_, ?_⟩ <;>
        · intro r hr
          rw [hrec] at hr
          exact Option.noConfusion hr
    · split at h
      · cases h
        refine ⟨fun _ => rfl, fun r hr _ => rfl, ?_⟩
        intro r hr hapi
        injection hr with hr2
        subst hr2
        exact absurd (by simp [pSet, pGet, List.find?]) hapi
      · split at h
        · cases h
          exact ⟨fun _ => rfl, fun r hr _ => rfl,
            fun r hr => Option.noConfusion hr⟩
        · obtain ⟨n, -, h⟩ := except_bind_eq_ok h
          split at h
          · cases h
            exact ⟨fun _ => rfl, fun r hr _ => rfl,
              fun r hr => Option.noConfusion hr⟩
          · obtain ⟨argvals, -, h⟩ := except_bind_eq_ok h
            obtain ⟨argdict, -, h⟩ := except_bind_eq_ok h
            split at h
            · obtain ⟨r, hr, h⟩ := except_bind_eq_ok h
              cases h
              refine ⟨fun hc => Option.noConfusion hc, ?_, ?_⟩
              · intro rx hrx hfs
                injection hrx with hrx2
                subst hrx2
                exact absurd hfs (procProcess_shape _ _ _ hr).1
              · intro rx hrx hapi
                injection hrx with hrx2
                subst hrx2
                rw [(procProcess_shape _ _ _ hr).2] at hapi
                exact absurd (by simp [parsed_base_no_api]) hapi
            · split at h
              · obtain ⟨r, hr, h⟩ := except_bind_eq_ok h
                cases h
                refine ⟨fun _ => rfl, fun rx _ _ => rfl, ?_⟩
                intro rx hrx hapi
                injection hrx with hrx2
                subst hrx2
                rw [(procThread_shape _ _ _ hr).1] at hapi
                exact absurd (by simp [parsed_base_no_api]) hapi
              · obtain ⟨r, hr, h⟩ := except_bind_eq_ok h
                cases h
                refine ⟨fun _ => rfl, fun rx _ _ => rfl, ?_⟩
                intro rx hrx hapi
                injection hrx with hrx2
                subst hrx2
                exact (procApicall_shape _ _ _ _ _ _ hr).1

theorem runFrom_pid_invariant (isRH : Bool) (ds : List Doc) :
    ∀ st : PState, st.pid = .vnone →
    ∀ i : Nat,
      (∀ j, j < i →
        pGet ((runDocsFrom isRH st ds).records.getD j []) "first_seen" = none) →
      pGet ((runDocsFrom isRH st ds).records.getD i []) "api" ≠ none →
      pGet ((runDocsFrom isRH st ds).records.getD i []) "pid" =
        some BVal.vnone := by
  induction ds with
  | nil =>
    intro st hpid i hnp hapi
    exact absurd (by simp [runDocsFrom, pGet]) hapi
  | cons d ds ih =>
    intro st hpid i hnp hapi
    cases hpd : procDoc isRH st d with
    | error e =>
      simp only [runDocsFrom, hpd] at hnp hapi ⊢
      exact absurd (by simp [pGet]) hapi
    | ok out =>
      simp only [runDocsFrom, hpd] at hnp hapi ⊢
      obtain ⟨f1, f2, f3⟩ := procDoc_step_facts _ _ _ _ hpd
      cases hrec : out.rec? with
      | none =>
        simp only [hrec, Option.toList_none, List.nil_append] at hnp hapi ⊢
        exact ih out.st (by rw [f1 hrec, hpid]) i hnp hapi
      | some r =>
        simp only [hrec, Option.toList_some, List.singleton_append]
          at hnp hapi ⊢
        cases i with
        | zero =>
          simp only [List.getD_cons_zero] at hapi ⊢
          rw [f3 r hrec hapi, hpid]
        | succ i2 =>
          have hfs : pGet r "first_seen" = none := by
            have h0 := hnp 0 (Nat.succ_pos _)
            simpa using h0
          have hpid2 : out.st.pid = .vnone := by rw [f2 r hrec hfs, hpid]
          have hnp2 : ∀ j, j < i2 →
              pGet ((runDocsFrom isRH out.st ds).records.getD j [])
                "first_seen" = none := by
            intro j hj
            have hj2 := hnp (j + 1) (Nat.succ_lt_succ hj)
            simpa using hj2
          have hapi2 : pGet ((runDocsFrom isRH out.st ds).records.getD i2 [])
              "api" ≠ none := by simpa using hapi
          simpa using ih out.st hpid2 i2 hnp2 hapi2

/-- C10: in every decoded stream, an api-call record yielded before any
process record (no earlier record carries a `first_seen` timestamp, the
field only process records have) is stamped with pid `None` — the
initial current-pid value — not skipped and not defaulted to a number.
Api-call records are exactly those carrying an `api` field. -/
theorem apicall_pid_none_before_process (isRH : Bool) (ds : List Doc)
    (i : Nat)
    (hnoproc : ∀ j, j < i →
      pGet ((runDocs isRH ds).records.getD j []) "first_seen" = none)
    (hapi : pGet ((runDocs isRH ds).records.getD i []) "api" ≠ none) :
    pGet ((runDocs isRH ds).records.getD i []) "pid" = some BVal.vnone :=
  runFrom_pid_invariant isRH ds initPState rfl i hnoproc hapi

/-- Info document for the C10 witness: an ordinary `open` call. -/
def c10Info : Doc :=
  [("type", .vstr "info"), ("I", .vint 4), ("name", .vstr "open"),
   ("category", .vstr "filesystem"),
   ("args", .vlist [.vstr "is_success", .vstr "retval", .vstr "fd"])]

/-- Data document for the C10 witness. -/
def c10Data : Doc :=
  [("I", .vint 4), ("T", .vint 77), ("args", .vlist [.vint 1, .vint 3, .vint 9])]

/-- Concrete witness for C10: the first record of a stream whose data
frame precedes any process frame is an api-call record with pid `None`. -/
theorem apicall_pid_none_before_process_witness :
    pGet ((runDocs false [c10Info, c10Data]).records.getD 0 []) "pid" =
      some BVal.vnone :=
  apicall_pid_none_before_process false [c10Info, c10Data] 0
    (fun j hj => absurd hj (Nat.not_lt_zero j))
    (by
      intro hc
      have happ : pGet ((runDocs false [c10Info, c10Data]).records.getD 0 [])
          "api" = some (.vstr "open") := rfl
      rw [happ] at hc
      exact Option.noConfusion hc)
